import Mathlib

/-!
Shallow embedding of `SetupSwipeHandler` from
`src/Telegram/SourceFiles/history/history_view_swipe.cpp`.

The handler is a per-widget gesture recognizer.  Its mutable closure state
(`State` in the source) is embedded as the structure `SwipeState`.  Every
closure of the source (`updateRatio`, `setOrientation`, `processEnd`,
`updateWith`, `filter`) becomes a pure function returning the new state
together with the list of externally visible effects it performs, in
program order.  Floating-point values (`QPointF`, `float64` ratios) are
modelled as rationals; external constants (`style::ConvertFloatScale(50)`,
`st::slideWrapDuration`, `QApplication::startDragDistance()`,
`Platform::IsMac()`) are collected in a `Config` record.
-/

namespace SwipeHandler

/-- A `QPointF`: a 2-d point with rational coordinates. -/
structure QPointF where
  x : ℚ
  y : ℚ
  deriving DecidableEq, Repr

instance : Sub QPointF := ⟨fun a b => ⟨a.x - b.x, a.y - b.y⟩⟩

theorem QPointF.sub_def (a b : QPointF) : a - b = ⟨a.x - b.x, a.y - b.y⟩ := rfl

/-- `Qt::Orientation`: the two decided orientations; `Undetermined` is the
`std::nullopt` of the source's `std::optional<Qt::Orientation>`. -/
inductive Orientation where
  | horizontal
  | vertical
  deriving DecidableEq, Repr

/-- `SwipeHandlerFinishData`: the message id plus the optional completion
action produced by `generateFinishByTop`.  The action itself (`Fn<void()>`)
is opaque; we identify it by a numeric tag so invocations can be counted. -/
structure SwipeHandlerFinishData where
  msgBareId : ℤ
  callback : Option ℕ
  deriving DecidableEq, Repr

/-- `ChatPaintGestureHorizontalData`: the payload of one `update(...)`
notification emitted to the caller. -/
structure ChatPaintGestureHorizontalData where
  ratio : ℚ
  reachRatio : ℚ
  translation : ℤ
  msgBareId : ℤ
  cursorTop : ℤ
  deriving DecidableEq, Repr

/-- The mutable closure state `State` of `SetupSwipeHandler`.
`reachValue` stands for the current interpolated value of
`animationReach` (read by `updateRatio` as `animationReach.value(0.)`);
it is driven by the external animation clock, so no step mutates it. -/
structure SwipeState where
  finishByTopData : SwipeHandlerFinishData
  orientation : Option Orientation
  startAt : QPointF
  delta : QPointF
  cursorTop : ℤ
  started : Bool
  reached : Bool
  touch : Bool
  reachValue : ℚ
  deriving DecidableEq, Repr

/-- External constants the handler reads from its environment. -/
structure Config where
  /-- `style::ConvertFloatScale(kThresholdWidth)` with `kThresholdWidth = 50`. -/
  threshold : ℚ
  /-- `st::slideWrapDuration`, in milliseconds. -/
  slideWrapDuration : ℕ
  /-- `QApplication::startDragDistance()`. -/
  startDragDistance : ℚ
  /-- `Platform::IsMac()`. -/
  isMac : Bool
  deriving DecidableEq, Repr

/-- Every externally visible action a step of the handler can take, in
program order.  `postponeCall` is `Ui::PostponeCall` (deferred invocation
of the completion action); `invokeCall` would be a synchronous invocation,
which the source never performs.  `resolverCall` records one call to the
caller-supplied `generateFinishByTop`. -/
inductive Effect where
  | emitUpdate (d : ChatPaintGestureHorizontalData)
  | postponeCall (id : ℕ)
  | invokeCall (id : ℕ)
  | stopReach
  | stopEnd
  | startReach (a b : ℚ) (duration : ℕ)
  | startEnd (a b : ℚ) (duration : ℕ)
  | haptic
  | setTouchAccepted (accepted : Bool)
  | disableScroll (disabled : Bool)
  | resolverCall (top : ℤ)
  deriving DecidableEq, Repr

/-- `std::abs` on rationals, written so that it evaluates by kernel
reduction (Mathlib's lattice-based `|·|` does not). -/
def absQ (q : ℚ) : ℚ :=
  if q < 0 then -q else q

/-- `std::clamp(v, lo, hi)`: `lo` if `v < lo`, `hi` if `hi < v`, else `v`. -/
def stdClamp (v lo hi : ℚ) : ℚ :=
  if v < lo then lo else if hi < v then hi else v

/-- `base::SafeRound`: round half away from zero, as `std::round` does. -/
def SafeRound (q : ℚ) : ℤ :=
  if 0 ≤ q then ⌊q + 1/2⌋ else -⌊-q + 1/2⌋

/-- The payload built by the `updateRatio` closure for a given raw ratio. -/
def updateRatioData (cfg : Config) (st : SwipeState) (ratio : ℚ) :
    ChatPaintGestureHorizontalData :=
  { ratio := stdClamp ratio 0 (3/2)
    reachRatio := st.reachValue
    translation := SafeRound (-(stdClamp ratio 0 (3/2)) * cfg.threshold)
    msgBareId := st.finishByTopData.msgBareId
    cursorTop := st.cursorTop }

/-- The `updateRatio` closure: emit one update notification. -/
def updateRatio (cfg : Config) (st : SwipeState) (ratio : ℚ) : Effect :=
  .emitUpdate (updateRatioData cfg st ratio)

/-- The `setOrientation` closure: store the orientation, then toggle the
viewport's touch acceptance and the scroll collaborator's scrolling. -/
def setOrientation (st : SwipeState) (o : Option Orientation) :
    SwipeState × List Effect :=
  let isHorizontal : Bool := o = some .horizontal
  ({ st with orientation := o },
    [.setTouchAccepted (!isHorizontal), .disableScroll isHorizontal])

/-- The `processEnd` closure: when the gesture was Horizontal, possibly
postpone the completion action, stop both animations and start the end
animation from the final ratio down to 0; in every case clear the
orientation and the `started`/`reached` flags. -/
def processEnd (cfg : Config) (st : SwipeState) (deltaOverride : Option QPointF) :
    SwipeState × List Effect :=
  if st.orientation = some .horizontal then
    let ratio := (deltaOverride.getD st.delta).x / cfg.threshold
    let post : List Effect :=
      match st.finishByTopData.callback with
      | some id => if 1 ≤ ratio then [.postponeCall id] else []
      | none => []
    let r1 := setOrientation st none
    ({ r1.1 with started := false, reached := false },
      post ++ [.stopReach, .stopEnd, .startEnd ratio 0 cfg.slideWrapDuration]
        ++ r1.2)
  else
    let r1 := setOrientation st none
    ({ r1.1 with started := false, reached := false }, r1.2)

/-- The argument record of the `updateWith` closure. -/
structure UpdateArgs where
  position : QPointF
  delta : QPointF
  touch : Bool
  deriving DecidableEq, Repr

/-- `kResetReachedOn` from the source. -/
def kResetReachedOn : ℚ := 95/100

/-- `kBounceDuration` from the source, in milliseconds. -/
def kBounceDuration : ℕ := 500

/-- `kOrientationThreshold` from the source. -/
def kOrientationThreshold : ℚ := 1

/-- The `updateWith` closure.  `resolver` is the caller-supplied
`generateFinishByTop`; `cursorNow` is the widget-local y coordinate of
`QCursor::pos()` at the time of the call. -/
def updateWith (cfg : Config) (resolver : ℤ → SwipeHandlerFinishData)
    (cursorNow : ℤ) (st : SwipeState) (args : UpdateArgs) :
    SwipeState × List Effect :=
  if st.started = false ∨ st.touch ≠ args.touch then
    let finish := resolver cursorNow
    let st1 := { st with
      started := true
      touch := args.touch
      startAt := args.position
      delta := ⟨0, 0⟩
      cursorTop := cursorNow
      finishByTopData := finish }
    match finish.callback with
    | none =>
      let r2 := setOrientation st1 (some .vertical)
      (r2.1, .resolverCall cursorNow :: r2.2)
    | some _ => (st1, [.resolverCall cursorNow])
  else if st.orientation = none then
    let st1 := { st with delta := args.delta }
    let diffXtoY := absQ args.delta.x - absQ args.delta.y
    if kOrientationThreshold < diffXtoY then
      setOrientation st1 (some .horizontal)
    else if diffXtoY < -kOrientationThreshold then
      setOrientation st1 (some .vertical)
    else
      setOrientation st1 none
  else if st.orientation = some .horizontal then
    let st1 := { st with delta := args.delta }
    let ratio := args.delta.x / cfg.threshold
    let e0 := updateRatio cfg st1 ratio
    if st1.reached = false ∧ 1 ≤ ratio then
      ({ st1 with reached := true },
        [e0, .stopReach, .startReach 0 1 kBounceDuration, .haptic])
    else if st1.reached = true ∧ ratio < kResetReachedOn then
      ({ st1 with reached := false }, [e0])
    else
      (st1, [e0])
  else
    (st, [])

/-- `Qt::TouchPointState`-relevant data of one touch point. -/
structure TouchPoint where
  pos : QPointF
  released : Bool
  deriving DecidableEq, Repr

/-- The four touch event types the filter handles. -/
inductive TouchKind where
  | begin
  | update
  | touchEnd
  | touchCancel
  deriving DecidableEq, Repr

/-- `Qt::ScrollPhase`. -/
inductive ScrollPhase where
  | noPhase
  | scrollBegin
  | scrollUpdate
  | scrollEnd
  | scrollMomentum
  deriving DecidableEq, Repr

/-- The platform events the filter inspects.  `other` stands for every
`QEvent` type not named in the switch. -/
inductive Event where
  | leave
  | mouseMove (posY : ℚ)
  | touch (kind : TouchKind) (touchscreen : Bool) (touches : List TouchPoint)
  | wheel (buttonsHeld : Bool) (phase : ScrollPhase) (scrollDelta : QPointF)
  | other
  deriving DecidableEq, Repr

/-- `base::EventFilterResult`. -/
inductive FilterResult where
  | Cancel
  | Continue
  deriving DecidableEq, Repr

/-- The `released` helper of the touch case: whether touch point `i`
exists and reports `Qt::TouchPointReleased`. -/
def releasedAt (touches : List TouchPoint) (i : ℕ) : Bool :=
  match touches.get? i with
  | some t => t.released
  | none => false

/-- The event filter installed on the widget: dispatch on the event type,
feed `updateWith` or `processEnd`, and return `Cancel` exactly when an
accepted touch event was consumed. -/
def filter (cfg : Config) (resolver : ℤ → SwipeHandlerFinishData)
    (cursorNow : ℤ) (st : SwipeState) (e : Event) :
    SwipeState × List Effect × FilterResult :=
  match e with
  | .leave =>
    if st.orientation.isSome then
      let r1 := processEnd cfg st none
      (r1.1, r1.2, .Continue)
    else
      (st, [], .Continue)
  | .mouseMove posY =>
    if st.orientation.isSome ∧ cfg.startDragDistance < absQ (posY - (st.cursorTop : ℚ)) then
      let r1 := processEnd cfg st none
      (r1.1, r1.2, .Continue)
    else
      (st, [], .Continue)
  | .touch kind touchscreen touches =>
    if cfg.isMac = false ∧ touchscreen = false then
      (st, [], .Continue)
    else
      let cancel := releasedAt touches 0 ∨ releasedAt touches 1
        ∨ (if touchscreen then touches.length ≠ 1
            else touches.length = 0 ∨ 2 < touches.length)
        ∨ kind = .touchEnd ∨ kind = .touchCancel
      if cancel then
        let dOv := match touches.head? with
          | none => (none : Option QPointF)
          | some t => some (st.startAt - t.pos)
        let r1 := processEnd cfg st dOv
        (r1.1, r1.2, .Cancel)
      else
        let p := (touches.head?.getD ⟨⟨0, 0⟩, false⟩).pos
        let r1 := updateWith cfg resolver cursorNow st
          { position := p, delta := st.startAt - p, touch := true }
        (r1.1, r1.2, .Cancel)
  | .wheel buttonsHeld phase scrollDelta =>
    if cfg.isMac = true ∨ phase = .noPhase then
      (st, [], .Continue)
    else if buttonsHeld = true ∨ phase = .scrollEnd ∨ phase = .scrollMomentum then
      let r1 := processEnd cfg st none
      (r1.1, r1.2, .Continue)
    else
      let r1 := updateWith cfg resolver cursorNow st
        { position := ⟨0, 0⟩, delta := st.delta - scrollDelta, touch := false }
      (r1.1, r1.2, .Continue)
  | .other => (st, [], .Continue)

/-- Feed a list of update samples through `updateWith`, collecting all
effects in order. -/
def runUpdates (cfg : Config) (resolver : ℤ → SwipeHandlerFinishData)
    (cursorNow : ℤ) (st : SwipeState) : List UpdateArgs → SwipeState × List Effect
  | [] => (st, [])
  | d :: rest =>
    let r1 := updateWith cfg resolver cursorNow st d
    let r2 := runUpdates cfg resolver cursorNow r1.1 rest
    (r2.1, r1.2 ++ r2.2)

/-- Count the effects in a list satisfying a predicate. -/
def countE (p : Effect → Bool) (l : List Effect) : ℕ :=
  (l.filter p).length

def isPostpone : Effect → Bool
  | .postponeCall _ => true
  | _ => false

def isInvoke : Effect → Bool
  | .invokeCall _ => true
  | _ => false

def isEmit : Effect → Bool
  | .emitUpdate _ => true
  | _ => false

def isStartReach : Effect → Bool
  | .startReach _ _ _ => true
  | _ => false

def isStartEnd : Effect → Bool
  | .startEnd _ _ _ => true
  | _ => false

def isHaptic : Effect → Bool
  | .haptic => true
  | _ => false

def isResolver : Effect → Bool
  | .resolverCall _ => true
  | _ => false

def isDisableScroll : Effect → Bool
  | .disableScroll _ => true
  | _ => false

def isSetTouchAccepted : Effect → Bool
  | .setTouchAccepted _ => true
  | _ => false

/-- An animation-lifecycle effect: a stop or a start of either animation. -/
def isAnim : Effect → Bool
  | .stopReach => true
  | .stopEnd => true
  | .startReach _ _ _ => true
  | .startEnd _ _ _ => true
  | _ => false

/-- Whether an event is a touch event the handler accepts: on Mac, or when
the device reports a touchscreen. -/
def touchAccepted (cfg : Config) : Event → Bool
  | .touch _ touchscreen _ => cfg.isMac || touchscreen
  | _ => false

/-- The specification's notion of threshold crossings along a sequence of
live ratios: a crossing happens on a sample whose ratio is at least 1
while the `reached` flag is down; the flag resets once the ratio drops
below the hysteresis floor 0.95.  This definition follows the spec's
words and is compared against the effects the embedded code emits. -/
def specCrossings (reached : Bool) : List ℚ → ℕ
  | [] => 0
  | r :: rest =>
    if reached = false ∧ 1 ≤ r then specCrossings true rest + 1
    else if reached = true ∧ r < 95/100 then specCrossings false rest
    else specCrossings reached rest

/-! ### Concrete fixtures

Shared concrete values used by witnesses and counterexamples: a config
with threshold 50 (the nominal `kThresholdWidth` at scale 100%), a
resolver that always yields a completion action, and a few states. -/

def cfg50 : Config := ⟨50, 200, 10, false⟩

def finishWithAction : SwipeHandlerFinishData := ⟨7, some 1⟩

def finishNoAction : SwipeHandlerFinishData := ⟨7, none⟩

def resolverWithAction : ℤ → SwipeHandlerFinishData := fun _ => finishWithAction

def resolverNoAction : ℤ → SwipeHandlerFinishData := fun _ => finishNoAction

/-- A state in the middle of an undetermined gesture (wheel source). -/
def stUndet : SwipeState :=
  ⟨finishWithAction, none, ⟨0, 0⟩, ⟨0, 0⟩, 0, true, false, false, 0⟩

/-- A state tracking a horizontal touch gesture past the threshold. -/
def stHoriz : SwipeState :=
  ⟨finishWithAction, some .horizontal, ⟨0, 0⟩, ⟨60, 0⟩, 0, true, false, true, 0⟩

/-- A state tracking a horizontal wheel gesture, short of the threshold. -/
def stHorizWheel : SwipeState :=
  ⟨finishWithAction, some .horizontal, ⟨0, 0⟩, ⟨30, 0⟩, 0, true, false, false, 0⟩

/-- A state tracking a vertical gesture. -/
def stVert : SwipeState :=
  ⟨finishWithAction, some .vertical, ⟨0, 0⟩, ⟨60, 0⟩, 0, true, false, false, 0⟩

/-- A state with no gesture in progress. -/
def stIdle : SwipeState :=
  ⟨finishWithAction, none, ⟨0, 0⟩, ⟨0, 0⟩, 0, false, false, false, 0⟩

/-- A horizontal touch state with the `reached` flag already set. -/
def stReachedH : SwipeState :=
  ⟨finishWithAction, some .horizontal, ⟨0, 0⟩, ⟨55, 0⟩, 0, true, true, true, 0⟩

/-- A sample run of wheel updates: ratios 0.6, 1.1, 1.2, 0.5, 1.3, giving
two crossings of the threshold. -/
def dsRun : List UpdateArgs :=
  [⟨⟨0, 0⟩, ⟨30, 0⟩, false⟩, ⟨⟨0, 0⟩, ⟨55, 0⟩, false⟩, ⟨⟨0, 0⟩, ⟨60, 0⟩, false⟩,
    ⟨⟨0, 0⟩, ⟨25, 0⟩, false⟩, ⟨⟨0, 0⟩, ⟨65, 0⟩, false⟩]

end SwipeHandler

namespace SwipeHandler

/-! ### Basic lemmas -/

theorem absQ_eq_abs (q : ℚ) : absQ q = |q| := by
  by_cases h : q < 0
  · simp [absQ, h, abs_of_neg h]
  · simp [absQ, h, abs_of_nonneg (le_of_not_lt h)]

theorem countE_append (p : Effect → Bool) (l1 l2 : List Effect) :
    countE p (l1 ++ l2) = countE p l1 + countE p l2 := by
  simp [countE, List.filter_append]

/-- `processEnd` performs no call to the Finish Resolver and emits no
update notification, whatever the state. -/
theorem processEnd_no_input (cfg : Config) (st : SwipeState) (dOv : Option QPointF) :
    countE isResolver (processEnd cfg st dOv).2 = 0
    ∧ countE isEmit (processEnd cfg st dOv).2 = 0 := by
  by_cases hO : st.orientation = some Orientation.horizontal
  · cases hcb : st.finishByTopData.callback with
    | none => simp [processEnd, setOrientation, hO, hcb, countE, isResolver, isEmit]
    | some id =>
      by_cases hr : 1 ≤ (dOv.getD st.delta).x / cfg.threshold
      · simp [processEnd, setOrientation, hO, hcb, hr, countE, isResolver, isEmit]
      · simp [processEnd, setOrientation, hO, hcb, hr, countE, isResolver, isEmit]
  · simp [processEnd, setOrientation, hO, countE, isResolver, isEmit]

/-- On a Horizontal in-progress gesture with matching source type,
`updateWith` takes exactly the threshold-tracking branch of the source. -/
theorem updateWith_horizontal (cfg : Config) (resolver : ℤ → SwipeHandlerFinishData)
    (cursorNow : ℤ) (st : SwipeState) (args : UpdateArgs)
    (hs : st.started = true) (ht : st.touch = args.touch)
    (ho : st.orientation = some Orientation.horizontal) :
    updateWith cfg resolver cursorNow st args =
      (if st.reached = false ∧ 1 ≤ args.delta.x / cfg.threshold then
        ({ st with delta := args.delta, reached := true },
          [updateRatio cfg { st with delta := args.delta } (args.delta.x / cfg.threshold),
            .stopReach, .startReach 0 1 kBounceDuration, .haptic])
      else if st.reached = true ∧ args.delta.x / cfg.threshold < kResetReachedOn then
        ({ st with delta := args.delta, reached := false },
          [updateRatio cfg { st with delta := args.delta } (args.delta.x / cfg.threshold)])
      else
        ({ st with delta := args.delta },
          [updateRatio cfg { st with delta := args.delta } (args.delta.x / cfg.threshold)])) := by
  have hcond : ¬(st.started = false ∨ st.touch ≠ args.touch) := by simp [hs, ht]
  have ho2 : ¬(st.orientation = none) := by simp [ho]
  rw [updateWith, if_neg hcond, if_neg ho2, if_pos ho]

/-! ### Claim theorems -/

/-- C1: when `processEnd` runs, the completion action is scheduled via the
deferred `Ui::PostponeCall` exactly once if and only if the orientation is
Horizontal, the final ratio (override delta if supplied, else the live
delta, divided by the threshold) is at least 1, and a completion action is
present; it is never invoked synchronously, and with ratio below 1 or no
action nothing is scheduled, regardless of orientation. -/
theorem processEnd_postpone (cfg : Config) (st : SwipeState) (dOv : Option QPointF) :
    countE isPostpone (processEnd cfg st dOv).2 =
      (if st.orientation = some Orientation.horizontal
          ∧ 1 ≤ (dOv.getD st.delta).x / cfg.threshold
          ∧ st.finishByTopData.callback.isSome = true
        then 1 else 0)
    ∧ countE isInvoke (processEnd cfg st dOv).2 = 0 := by
  by_cases hO : st.orientation = some Orientation.horizontal
  · cases hcb : st.finishByTopData.callback with
    | none => simp [processEnd, setOrientation, hO, hcb, countE, isPostpone, isInvoke]
    | some id =>
      by_cases hr : 1 ≤ (dOv.getD st.delta).x / cfg.threshold
      · simp [processEnd, setOrientation, hO, hcb, hr, countE, isPostpone, isInvoke]
      · simp [processEnd, setOrientation, hO, hcb, hr, countE, isPostpone, isInvoke]
  · simp [processEnd, setOrientation, hO, countE, isPostpone, isInvoke]

/-- C2 (amended): while the orientation is Undetermined mid-gesture, a
sample with `diff = |delta.x| - |delta.y|` above 1 resolves Horizontal,
below -1 resolves Vertical; for `diff` in `[-1, 1]` the orientation stays
Undetermined, but `setOrientation(nullopt)` still runs, calling the
viewport's touch-acceptance setter with `true` and `disableScroll(false)`. -/
theorem orientation_decision (cfg : Config) (resolver : ℤ → SwipeHandlerFinishData)
    (cursorNow : ℤ) (st : SwipeState) (args : UpdateArgs)
    (hs : st.started = true) (ht : st.touch = args.touch) (ho : st.orientation = none) :
    ((1 : ℚ) < |args.delta.x| - |args.delta.y| →
      (updateWith cfg resolver cursorNow st args).1.orientation = some Orientation.horizontal)
    ∧ (|args.delta.x| - |args.delta.y| < -1 →
      (updateWith cfg resolver cursorNow st args).1.orientation = some Orientation.vertical)
    ∧ (-1 ≤ |args.delta.x| - |args.delta.y| → |args.delta.x| - |args.delta.y| ≤ 1 →
      (updateWith cfg resolver cursorNow st args).1.orientation = none
      ∧ (updateWith cfg resolver cursorNow st args).2 =
          [Effect.setTouchAccepted true, Effect.disableScroll false]) := by
  have hcond : ¬(st.started = false ∨ st.touch ≠ args.touch) := by simp [hs, ht]
  rw [updateWith, if_neg hcond, if_pos ho]
  simp only [kOrientationThreshold, absQ_eq_abs]
  split_ifs with h1 h2
  · exact ⟨fun _ => by simp [setOrientation],
      fun h => absurd h (by linarith),
      fun ha hb => absurd h1 (by linarith)⟩
  · exact ⟨fun h => absurd h (by linarith),
      fun _ => by simp [setOrientation],
      fun ha hb => absurd h2 (by linarith)⟩
  · exact ⟨fun h => absurd h (by linarith),
      fun h => absurd h (by linarith),
      fun _ _ => ⟨by simp [setOrientation], by simp [setOrientation]⟩⟩

theorem orientation_decision_witness :
    (updateWith cfg50 resolverWithAction 0 stUndet ⟨⟨0, 0⟩, ⟨5, 1⟩, false⟩).1.orientation
        = some Orientation.horizontal
    ∧ (updateWith cfg50 resolverWithAction 0 stUndet ⟨⟨0, 0⟩, ⟨1, 5⟩, false⟩).1.orientation
        = some Orientation.vertical
    ∧ (updateWith cfg50 resolverWithAction 0 stUndet ⟨⟨0, 0⟩, ⟨1, 1⟩, false⟩).1.orientation
        = none :=
  ⟨(orientation_decision cfg50 resolverWithAction 0 stUndet _ rfl rfl rfl).1 (by norm_num),
    (orientation_decision cfg50 resolverWithAction 0 stUndet _ rfl rfl rfl).2.1 (by norm_num),
    ((orientation_decision cfg50 resolverWithAction 0 stUndet _ rfl rfl rfl).2.2
      (by norm_num) (by norm_num)).1⟩

/-- C2 (counterexample): on the sample `delta = (1, 1)` (diff 0, inside
the `[-1, 1]` band) the orientation stays Undetermined, yet one
`disableScroll` call and one touch-acceptance call are made — the claim's
"no call to disableScroll or to the viewport's touch-acceptance setter"
is false on the code. -/
theorem orientation_decision_ce :
    (updateWith cfg50 resolverWithAction 0 stUndet ⟨⟨0, 0⟩, ⟨1, 1⟩, false⟩).1.orientation = none
    ∧ countE isDisableScroll
        (updateWith cfg50 resolverWithAction 0 stUndet ⟨⟨0, 0⟩, ⟨1, 1⟩, false⟩).2 = 1
    ∧ countE isSetTouchAccepted
        (updateWith cfg50 resolverWithAction 0 stUndet ⟨⟨0, 0⟩, ⟨1, 1⟩, false⟩).2 = 1 := by
  refine ⟨?_, ?_, ?_⟩ <;>
    norm_num [updateWith, setOrientation, stUndet, cfg50, resolverWithAction,
      finishWithAction, absQ, kOrientationThreshold, countE, isDisableScroll,
      isSetTouchAccepted]

/-- C3: across any single processed update sample, `reached` flips from
false to true only while the orientation is Horizontal and the live ratio
is at least 1; it flips from true to false only when the live ratio is
below 0.95; and for a live ratio of at least 0.95 a set `reached` flag
stays set. -/
theorem reached_hysteresis (cfg : Config) (resolver : ℤ → SwipeHandlerFinishData)
    (cursorNow : ℤ) (st : SwipeState) (args : UpdateArgs) :
    ((st.reached = false ∧ (updateWith cfg resolver cursorNow st args).1.reached = true) →
      st.orientation = some Orientation.horizontal ∧ 1 ≤ args.delta.x / cfg.threshold)
    ∧ ((st.reached = true ∧ (updateWith cfg resolver cursorNow st args).1.reached = false) →
      args.delta.x / cfg.threshold < 95/100)
    ∧ ((st.reached = true ∧ 95/100 ≤ args.delta.x / cfg.threshold) →
      (updateWith cfg resolver cursorNow st args).1.reached = true) := by
  by_cases h1 : st.started = false ∨ st.touch ≠ args.touch
  · rw [updateWith, if_pos h1]
    cases hcb : (resolver cursorNow).callback <;> cases hr : st.reached <;>
      simp [hcb, hr, setOrientation]
  · rw [updateWith, if_neg h1]
    by_cases ho : st.orientation = none
    · rw [if_pos ho]
      simp only [setOrientation]
      cases hr : st.reached <;> split_ifs <;> simp [hr]
    · rw [if_neg ho]
      by_cases hh : st.orientation = some Orientation.horizontal
      · rw [if_pos hh]
        simp only [updateRatio]
        cases hr : st.reached <;> split_ifs with hc1 hc2 <;>
          simp_all [kResetReachedOn]
      · rw [if_neg hh]
        cases hr : st.reached <;> simp [hr]

theorem reached_hysteresis_witness :
    (stHoriz.orientation = some Orientation.horizontal
      ∧ (1 : ℚ) ≤ (⟨⟨0, 0⟩, ⟨55, 0⟩, true⟩ : UpdateArgs).delta.x / cfg50.threshold)
    ∧ ((⟨⟨0, 0⟩, ⟨20, 0⟩, true⟩ : UpdateArgs).delta.x / cfg50.threshold < 95/100)
    ∧ (updateWith cfg50 resolverWithAction 0 stReachedH
        ⟨⟨0, 0⟩, ⟨48, 0⟩, true⟩).1.reached = true := by
  refine ⟨?_, ?_, ?_⟩
  · refine (reached_hysteresis cfg50 resolverWithAction 0 stHoriz ⟨⟨0, 0⟩, ⟨55, 0⟩, true⟩).1
      ⟨rfl, ?_⟩
    norm_num [updateWith, setOrientation, updateRatio, updateRatioData, stHoriz,
      cfg50, finishWithAction, resolverWithAction, kResetReachedOn, kBounceDuration]
    decide
  · refine (reached_hysteresis cfg50 resolverWithAction 0 stReachedH
        ⟨⟨0, 0⟩, ⟨20, 0⟩, true⟩).2.1 ⟨rfl, ?_⟩
    norm_num [updateWith, setOrientation, updateRatio, updateRatioData, stReachedH,
      cfg50, finishWithAction, resolverWithAction, kResetReachedOn, kBounceDuration]
    decide
  · exact (reached_hysteresis cfg50 resolverWithAction 0 stReachedH
        ⟨⟨0, 0⟩, ⟨48, 0⟩, true⟩).2.2 ⟨rfl, by norm_num [cfg50]⟩

end SwipeHandler

namespace SwipeHandler

/-- C4: along any run of update samples on a Horizontal gesture, the reach
animation starts exactly once per crossing of ratio at least 1 (guarded by
`reached`, reset below 0.95), each start is `startReach` from 0 to 1 over
500 ms, and each start is accompanied by exactly one haptic-feedback
call (the start effects equal one replicated `startReach 0 1 500` per
crossing, and the haptic count equals the crossing count). -/
theorem reach_per_crossing (cfg : Config) (resolver : ℤ → SwipeHandlerFinishData)
    (cursorNow : ℤ) (st : SwipeState) (ds : List UpdateArgs)
    (hs : st.started = true) (ho : st.orientation = some Orientation.horizontal)
    (ht : ∀ d ∈ ds, d.touch = st.touch) :
    ((runUpdates cfg resolver cursorNow st ds).2.filter isStartReach =
      List.replicate
        (specCrossings st.reached (ds.map fun d => d.delta.x / cfg.threshold))
        (Effect.startReach 0 1 500))
    ∧ countE isHaptic (runUpdates cfg resolver cursorNow st ds).2 =
        specCrossings st.reached (ds.map fun d => d.delta.x / cfg.threshold) := by
  induction ds generalizing st with
  | nil => simp [runUpdates, specCrossings, countE]
  | cons d rest ih =>
    have htd : st.touch = d.touch := (ht d (by simp)).symm
    rw [runUpdates]
    rw [updateWith_horizontal cfg resolver cursorNow st d hs htd ho]
    by_cases hc1 : st.reached = false ∧ 1 ≤ d.delta.x / cfg.threshold
    · rw [if_pos hc1]
      have ih' := ih { st with delta := d.delta, reached := true } hs ho
        (fun d2 hd2 => ht d2 (by simp [hd2]))
      simp only [List.map_cons, specCrossings, if_pos hc1]
      simp [List.filter_append, countE_append, countE, ih'.1,
        updateRatio, isStartReach, isHaptic, kBounceDuration, List.replicate_succ]
      simpa [countE] using ih'.2
    · rw [if_neg hc1]
      by_cases hc2 : st.reached = true ∧ d.delta.x / cfg.threshold < kResetReachedOn
      · rw [if_pos hc2]
        have ih' := ih { st with delta := d.delta, reached := false } hs ho
          (fun d2 hd2 => ht d2 (by simp [hd2]))
        have hspec : specCrossings st.reached
            ((d :: rest).map fun x => x.delta.x / cfg.threshold)
            = specCrossings false (rest.map fun x => x.delta.x / cfg.threshold) := by
          simp only [List.map_cons, specCrossings]
          rw [if_neg (fun hx => hc1 hx),
            if_pos ⟨hc2.1, by simpa [kResetReachedOn] using hc2.2⟩]
        rw [hspec]
        simp [List.filter_append, countE_append, countE, ih'.1,
          updateRatio, isStartReach, isHaptic]
        simpa [countE] using ih'.2
      · rw [if_neg hc2]
        have ih' := ih { st with delta := d.delta } hs ho
          (fun d2 hd2 => ht d2 (by simp [hd2]))
        have hspec : specCrossings st.reached
            ((d :: rest).map fun x => x.delta.x / cfg.threshold)
            = specCrossings st.reached (rest.map fun x => x.delta.x / cfg.threshold) := by
          simp only [List.map_cons, specCrossings]
          rw [if_neg (fun hx => hc1 hx),
            if_neg (fun hx => hc2 ⟨hx.1, by simpa [kResetReachedOn] using hx.2⟩)]
        rw [hspec]
        simp [List.filter_append, countE_append, countE, ih'.1,
          updateRatio, isStartReach, isHaptic]
        simpa [countE] using ih'.2

theorem reach_per_crossing_witness :
    ((runUpdates cfg50 resolverWithAction 0 stHorizWheel dsRun).2.filter isStartReach =
      List.replicate
        (specCrossings stHorizWheel.reached (dsRun.map fun d => d.delta.x / cfg50.threshold))
        (Effect.startReach 0 1 500))
    ∧ countE isHaptic (runUpdates cfg50 resolverWithAction 0 stHorizWheel dsRun).2 =
        specCrossings stHorizWheel.reached (dsRun.map fun d => d.delta.x / cfg50.threshold) :=
  reach_per_crossing cfg50 resolverWithAction 0 stHorizWheel dsRun rfl rfl
    (by intro d hd; fin_cases hd <;> rfl)

/-- C5 (amended): when the orientation is Horizontal, `processEnd` stops
the reach animation and the end animation before starting the end
animation from the final ratio (override delta if supplied, else the live
delta, over the threshold) down to 0; in every case (any orientation) the
state afterwards has orientation Undetermined, `started = false`,
`reached = false`.  When the orientation is not Horizontal, no end
animation is started (see the counterexample). -/
theorem processEnd_full (cfg : Config) (st : SwipeState) (dOv : Option QPointF) :
    (st.orientation = some Orientation.horizontal →
      ((processEnd cfg st dOv).2.filter isAnim) =
        [Effect.stopReach, Effect.stopEnd,
          Effect.startEnd ((dOv.getD st.delta).x / cfg.threshold) 0 cfg.slideWrapDuration])
    ∧ (processEnd cfg st dOv).1.orientation = none
    ∧ (processEnd cfg st dOv).1.started = false
    ∧ (processEnd cfg st dOv).1.reached = false := by
  by_cases hO : st.orientation = some Orientation.horizontal
  · cases hcb : st.finishByTopData.callback with
    | none => simp [processEnd, setOrientation, hO, hcb, isAnim]
    | some id =>
      by_cases hr : 1 ≤ (dOv.getD st.delta).x / cfg.threshold
      · simp [processEnd, setOrientation, hO, hcb, hr, isAnim]
      · simp [processEnd, setOrientation, hO, hcb, hr, isAnim]
  · simp [processEnd, setOrientation, hO, isAnim]

theorem processEnd_full_witness :
    ((processEnd cfg50 stHoriz none).2.filter isAnim) =
      [Effect.stopReach, Effect.stopEnd,
        Effect.startEnd (((none : Option QPointF).getD stHoriz.delta).x / cfg50.threshold) 0
          cfg50.slideWrapDuration]
    ∧ (processEnd cfg50 stHoriz none).1.orientation = none :=
  ⟨(processEnd_full cfg50 stHoriz none).1 rfl, (processEnd_full cfg50 stHoriz none).2.1⟩

/-- C5 (counterexample): a `processEnd` call on a Vertical gesture starts
no end animation at all — its effects are only the scroll-collaborator
calls — so "every call to processEnd ... starts the end animation" is
false on the code. -/
theorem processEnd_full_ce :
    countE isStartEnd (processEnd cfg50 stVert none).2 = 0
    ∧ (processEnd cfg50 stVert none).2 =
        [Effect.setTouchAccepted true, Effect.disableScroll false] :=
  ⟨rfl, rfl⟩

/-- C6: every emitted update notification carries the internal ratio
clamped to `[0, 1.5]` and a translation equal to the rounded value of
`-clamp(ratio, 0, 1.5) * threshold`; the internal ratio handed to the end
animation by `processEnd` is the unclamped quotient. -/
theorem emitted_ratio_clamped (cfg : Config) (st : SwipeState) (r : ℚ) :
    (updateRatioData cfg st r).ratio = max 0 (min r (3/2))
    ∧ (updateRatioData cfg st r).translation =
        SafeRound (-(updateRatioData cfg st r).ratio * cfg.threshold)
    ∧ ∀ (st2 : SwipeState) (dOv : Option QPointF),
        st2.orientation = some Orientation.horizontal →
        Effect.startEnd ((dOv.getD st2.delta).x / cfg.threshold) 0 cfg.slideWrapDuration
          ∈ (processEnd cfg st2 dOv).2 := by
  refine ⟨?_, rfl, ?_⟩
  · simp only [updateRatioData, stdClamp, max_def, min_def]
    split_ifs <;> linarith
  · intro st2 dOv h
    simp [processEnd, setOrientation, h]

theorem emitted_ratio_clamped_witness :
    Effect.startEnd (((some (⟨100, 0⟩ : QPointF)).getD stHoriz.delta).x / cfg50.threshold) 0
        cfg50.slideWrapDuration
      ∈ (processEnd cfg50 stHoriz (some ⟨100, 0⟩)).2 :=
  (emitted_ratio_clamped cfg50 stHoriz 0).2.2 stHoriz (some ⟨100, 0⟩) rfl

end SwipeHandler

namespace SwipeHandler

/-- C7 (amended): on the first Update of a new gesture — `started` false
or a source-type change — the recognizer seeds `startAt`, zeroes `delta`,
captures `cursorTop`, stores the resolver's result and calls the resolver
exactly once (and never outside this branch); if the resolver yields no
completion action the orientation is immediately set Vertical; if it
yields one, the orientation is left unchanged (Undetermined only when the
gesture starts from the idle state, since `processEnd` cleared it; a
mid-stream source-type reset keeps the previous orientation). -/
theorem gesture_start (cfg : Config) (resolver : ℤ → SwipeHandlerFinishData)
    (cursorNow : ℤ) (st : SwipeState) (args : UpdateArgs)
    (h : st.started = false ∨ st.touch ≠ args.touch) :
    (updateWith cfg resolver cursorNow st args).1.started = true
    ∧ (updateWith cfg resolver cursorNow st args).1.touch = args.touch
    ∧ (updateWith cfg resolver cursorNow st args).1.startAt = args.position
    ∧ (updateWith cfg resolver cursorNow st args).1.delta = ⟨0, 0⟩
    ∧ (updateWith cfg resolver cursorNow st args).1.cursorTop = cursorNow
    ∧ (updateWith cfg resolver cursorNow st args).1.finishByTopData = resolver cursorNow
    ∧ countE isResolver (updateWith cfg resolver cursorNow st args).2 = 1
    ∧ ((resolver cursorNow).callback = none →
        (updateWith cfg resolver cursorNow st args).1.orientation = some Orientation.vertical)
    ∧ (∀ id, (resolver cursorNow).callback = some id →
        (updateWith cfg resolver cursorNow st args).1.orientation = st.orientation)
    ∧ (∀ (st2 : SwipeState) (args2 : UpdateArgs), st2.started = true →
        st2.touch = args2.touch →
        countE isResolver (updateWith cfg resolver cursorNow st2 args2).2 = 0) := by
  have h1 : (updateWith cfg resolver cursorNow st args).1.started = true := by
    rw [updateWith, if_pos h]
    cases hcb : (resolver cursorNow).callback <;> simp [hcb, setOrientation]
  have h2 : (updateWith cfg resolver cursorNow st args).1.touch = args.touch := by
    rw [updateWith, if_pos h]
    cases hcb : (resolver cursorNow).callback <;> simp [hcb, setOrientation]
  have h3 : (updateWith cfg resolver cursorNow st args).1.startAt = args.position := by
    rw [updateWith, if_pos h]
    cases hcb : (resolver cursorNow).callback <;> simp [hcb, setOrientation]
  have h4 : (updateWith cfg resolver cursorNow st args).1.delta = ⟨0, 0⟩ := by
    rw [updateWith, if_pos h]
    cases hcb : (resolver cursorNow).callback <;> simp [hcb, setOrientation]
  have h5 : (updateWith cfg resolver cursorNow st args).1.cursorTop = cursorNow := by
    rw [updateWith, if_pos h]
    cases hcb : (resolver cursorNow).callback <;> simp [hcb, setOrientation]
  have h6 : (updateWith cfg resolver cursorNow st args).1.finishByTopData
      = resolver cursorNow := by
    rw [updateWith, if_pos h]
    cases hcb : (resolver cursorNow).callback <;> simp [hcb, setOrientation]
  have h7 : countE isResolver (updateWith cfg resolver cursorNow st args).2 = 1 := by
    rw [updateWith, if_pos h]
    cases hcb : (resolver cursorNow).callback <;>
      simp [hcb, setOrientation, countE, isResolver]
  have h8 : (resolver cursorNow).callback = none →
      (updateWith cfg resolver cursorNow st args).1.orientation
        = some Orientation.vertical := by
    intro hn
    rw [updateWith, if_pos h]
    simp [hn, setOrientation]
  have h9 : ∀ id, (resolver cursorNow).callback = some id →
      (updateWith cfg resolver cursorNow st args).1.orientation = st.orientation := by
    intro id hid
    rw [updateWith, if_pos h]
    simp [hid]
  have h10 : ∀ (st2 : SwipeState) (args2 : UpdateArgs), st2.started = true →
      st2.touch = args2.touch →
      countE isResolver (updateWith cfg resolver cursorNow st2 args2).2 = 0 := by
    intro st2 args2 hb1 hb2
    have hcond : ¬(st2.started = false ∨ st2.touch ≠ args2.touch) := by simp [hb1, hb2]
    rw [updateWith, if_neg hcond]
    by_cases ho : st2.orientation = none
    · rw [if_pos ho]
      simp only [countE]
      split_ifs <;> simp [setOrientation, isResolver]
    · rw [if_neg ho]
      by_cases hh : st2.orientation = some Orientation.horizontal
      · rw [if_pos hh]
        simp only [countE]
        split_ifs <;> simp [isResolver, updateRatio, updateRatioData]
      · rw [if_neg hh]
        simp [countE, isResolver]
  exact ⟨h1, h2, h3, h4, h5, h6, h7, h8, h9, h10⟩

theorem gesture_start_witness :
    (updateWith cfg50 resolverWithAction 9 stIdle ⟨⟨3, 4⟩, ⟨9, 9⟩, true⟩).1.cursorTop = 9
    ∧ (updateWith cfg50 resolverWithAction 9 stIdle ⟨⟨3, 4⟩, ⟨9, 9⟩, true⟩).1.orientation
        = stIdle.orientation
    ∧ (updateWith cfg50 resolverNoAction 9 stIdle ⟨⟨3, 4⟩, ⟨9, 9⟩, true⟩).1.orientation
        = some Orientation.vertical
    ∧ countE isResolver (updateWith cfg50 resolverWithAction 9 stIdle ⟨⟨3, 4⟩, ⟨9, 9⟩, true⟩).2
        = 1 := by
  obtain ⟨-, -, -, -, h5, -, h7, -, h9, -⟩ :=
    gesture_start cfg50 resolverWithAction 9 stIdle ⟨⟨3, 4⟩, ⟨9, 9⟩, true⟩ (Or.inl rfl)
  obtain ⟨-, -, -, -, -, -, -, h8, -, -⟩ :=
    gesture_start cfg50 resolverNoAction 9 stIdle ⟨⟨3, 4⟩, ⟨9, 9⟩, true⟩ (Or.inl rfl)
  exact ⟨h5, h9 1 rfl, h8 rfl, h7⟩

/-- C7 (counterexample): a source-type change mid-stream (touch gesture,
then a non-touch sample) with a resolver that does yield a completion
action leaves the previous Horizontal orientation in place — the gesture
does not enter the Tracking(Undetermined) state as the claim says. -/
theorem gesture_start_ce :
    stHoriz.started = true ∧ stHoriz.touch = true
    ∧ (resolverWithAction 5).callback.isSome = true
    ∧ (updateWith cfg50 resolverWithAction 5 stHoriz ⟨⟨0, 0⟩, ⟨0, 0⟩, false⟩).1.orientation
        = some Orientation.horizontal :=
  ⟨rfl, rfl, rfl, rfl⟩

/-- C8 (amended): a wheel event on a non-Mac platform with an active
scroll phase, arriving with a button held or with phase ScrollEnd or
ScrollMomentum, feeds no Update to the recognizer (no resolver call, no
update emission): instead it is treated as a gesture cancel, running
`processEnd` — which does change the state; only on Mac, or when the
phase is NoScrollPhase, is the event ignored with the state unchanged. -/
theorem wheel_cancel (cfg : Config) (resolver : ℤ → SwipeHandlerFinishData)
    (cursorNow : ℤ) (st : SwipeState) (b : Bool) (ph : ScrollPhase) (d : QPointF) :
    (cfg.isMac = false → ph ≠ ScrollPhase.noPhase →
      b = true ∨ ph = ScrollPhase.scrollEnd ∨ ph = ScrollPhase.scrollMomentum →
      filter cfg resolver cursorNow st (.wheel b ph d) =
        ((processEnd cfg st none).1, (processEnd cfg st none).2, FilterResult.Continue)
      ∧ countE isResolver (processEnd cfg st none).2 = 0
      ∧ countE isEmit (processEnd cfg st none).2 = 0)
    ∧ (cfg.isMac = true ∨ ph = ScrollPhase.noPhase →
      filter cfg resolver cursorNow st (.wheel b ph d) = (st, [], FilterResult.Continue)) := by
  constructor
  · intro hM hP hC
    have hcond : ¬(cfg.isMac = true ∨ ph = ScrollPhase.noPhase) := by
      rintro (h | h)
      · rw [h] at hM; cases hM
      · exact hP h
    refine ⟨?_, (processEnd_no_input cfg st none).1, (processEnd_no_input cfg st none).2⟩
    simp only [filter]
    rw [if_neg hcond, if_pos hC]
  · intro hC
    simp only [filter]
    rw [if_pos hC]

theorem wheel_cancel_witness :
    filter cfg50 resolverWithAction 0 stHorizWheel
        (.wheel false ScrollPhase.scrollMomentum ⟨0, 0⟩) =
      ((processEnd cfg50 stHorizWheel none).1, (processEnd cfg50 stHorizWheel none).2,
        FilterResult.Continue)
    ∧ filter cfg50 resolverWithAction 0 stHorizWheel
        (.wheel false ScrollPhase.noPhase ⟨0, 0⟩) =
      (stHorizWheel, [], FilterResult.Continue) :=
  ⟨((wheel_cancel cfg50 resolverWithAction 0 stHorizWheel false ScrollPhase.scrollMomentum
      ⟨0, 0⟩).1 rfl (by decide) (Or.inr (Or.inr rfl))).1,
    (wheel_cancel cfg50 resolverWithAction 0 stHorizWheel false ScrollPhase.noPhase
      ⟨0, 0⟩).2 (Or.inr rfl)⟩

/-- C8 (counterexample): a momentum-phase wheel event during a Horizontal
wheel gesture does change the gesture state — `started` flips to false
and the orientation is cleared — so "the gesture state is left unchanged"
is false on the code. -/
theorem wheel_cancel_ce :
    stHorizWheel.started = true
    ∧ (filter cfg50 resolverWithAction 0 stHorizWheel
        (.wheel false ScrollPhase.scrollMomentum ⟨0, 0⟩)).1.started = false
    ∧ stHorizWheel.orientation = some Orientation.horizontal
    ∧ (filter cfg50 resolverWithAction 0 stHorizWheel
        (.wheel false ScrollPhase.scrollMomentum ⟨0, 0⟩)).1.orientation = none := by
  refine ⟨rfl, ?_, rfl, ?_⟩ <;>
    · norm_num [filter, processEnd, setOrientation, stHorizWheel, cfg50, finishWithAction]
      decide

/-- C9: when the orientation is not Horizontal, `processEnd` starts no
animation, emits nothing and postpones nothing: its entire result is the
state with orientation cleared and `started`/`reached` false, and the two
scroll-collaborator calls (touch acceptance re-enabled, scrolling
re-enabled). -/
theorem processEnd_nonHorizontal (cfg : Config) (st : SwipeState)
    (dOv : Option QPointF) (h : st.orientation ≠ some Orientation.horizontal) :
    processEnd cfg st dOv =
      ({ st with orientation := none, started := false, reached := false },
        [.setTouchAccepted true, .disableScroll false]) := by
  simp [processEnd, setOrientation, h]

theorem processEnd_nonHorizontal_witness :
    processEnd cfg50 stVert none =
      ({ stVert with orientation := none, started := false, reached := false },
        [.setTouchAccepted true, .disableScroll false]) :=
  processEnd_nonHorizontal cfg50 stVert none (by decide)

/-- C10: the event filter returns Cancel exactly for the touch events it
accepts (on Mac, or when the device reports a touchscreen), whether they
cancel or update the gesture; every other event — including touch events
on non-Mac platforms without a touchscreen — returns Continue. -/
theorem filter_result_touch (cfg : Config) (resolver : ℤ → SwipeHandlerFinishData)
    (cursorNow : ℤ) (st : SwipeState) (e : Event) :
    (filter cfg resolver cursorNow st e).2.2 =
      if touchAccepted cfg e then FilterResult.Cancel else FilterResult.Continue := by
  cases e with
  | leave => simp only [filter, touchAccepted]; split <;> rfl
  | mouseMove posY => simp only [filter, touchAccepted]; split <;> rfl
  | touch kind ts tps =>
    rcases hM : cfg.isMac <;> rcases hT : ts <;>
      simp [filter, touchAccepted, hM, hT] <;>
      try (split <;> rfl)
  | wheel b ph d => simp only [filter, touchAccepted]; split <;> [rfl; (split <;> rfl)]
  | other => rfl

end SwipeHandler
